import Mathlib

/-!
Verification of the redissession library (a Redis-backed encrypted HTTP
session store written in Go) against its natural-language specification.

The development shallowly embeds the Go sources:
  * `cipher.go`   — the `Crypto` envelope (`EncryptAndSign` / `DecryptAndVerify`)
  * `session.go`  — the `Session` container (`Set` / `Get` / `Delete`)
  * the store file — `RedisStore` (`New` / `Save` / `RotateID` / `load` / `redisKey`)

External collaborators (the AEAD cipher, HMAC-SHA256, base64, the JSON
serializer, the Redis client and the random source) are modelled as explicit
parameters; their contracts appear as hypotheses of the theorems, and random
outputs (nonces, generated identifiers) and infrastructure failures are passed
in as explicit arguments, making every definition executable.

Byte strings are `List Nat`; Go `time.Time` and `time.Duration` are `Int`
(nanoseconds, as in Go); the base64 text envelope is kept in byte form since
the text encoding is an opaque reversible transport step.
-/

namespace RedisSession

/-- Byte strings (Go `[]byte`). -/
abbrev Bytes := List Nat

/-- UTF-8 bytes of a Go string, modelled as the codepoint list (injective). -/
def strBytes (s : String) : Bytes := s.data.map Char.toNat

/-- One second as a Go `time.Duration` (nanoseconds). -/
def second : Int := 1000000000

/-- The error values of the library (`errors.go`), plus the wrapped
`fmt.Errorf` error classes produced in `cipher.go`, plus infrastructure
errors coming from the Redis client (`redisError`) and from the random
source (`randError`). -/
inductive GoError where
  | sessionNotFound
  | storeNotFound
  | invalidSessionData
  | encryptionFailed
  | signatureInvalid
  | sessionExpired
  | invalidConfiguration
  | base64DecodeError
  | marshalError
  | unmarshalError
  | redisError (code : Nat)
  | randError (code : Nat)
deriving DecidableEq, Repr

instance {ε α : Type} [DecidableEq ε] [DecidableEq α] : DecidableEq (Except ε α) := fun a b =>
  match a, b with
  | .ok x, .ok y =>
    if h : x = y then isTrue (by rw [h]) else isFalse (fun hc => by cases hc; exact h rfl)
  | .error x, .error y =>
    if h : x = y then isTrue (by rw [h]) else isFalse (fun hc => by cases hc; exact h rfl)
  | .ok _, .error _ => isFalse (fun hc => Except.noConfusion hc)
  | .error _, .ok _ => isFalse (fun hc => Except.noConfusion hc)

/-- Go's `cipher.AEAD` interface, as used in `cipher.go`: `Seal` appends
`ciphertext‖tag` for a plaintext and associated data, `Open` inverts it.
Arguments are `(nonce, plaintext-or-ciphertext, associatedData)`. -/
structure AEAD where
  nonceSize : Nat
  overhead : Nat
  Seal : Bytes → Bytes → Bytes → Bytes
  Open : Bytes → Bytes → Bytes → Option Bytes

/-- The external encoding collaborators used by `cipher.go`:
standard base64 (`encoding/base64`) and HMAC-SHA256 (`crypto/hmac` with
`crypto/sha256`, a 32-byte MAC of `(key, data)`). -/
structure Ext where
  b64enc : Bytes → Bytes
  b64dec : Bytes → Option Bytes
  hmacSHA256 : Bytes → Bytes → Bytes

/-- The external structured encoder (`encoding/json`): `marshal` may fail
(Go `json.Marshal` returns an error for unsupported values), `unmarshal`
may fail on malformed bytes. -/
structure Serializer (α : Type) where
  marshal : α → Option Bytes
  unmarshal : Bytes → Option α

/-- `Crypto` from `cipher.go`: an AEAD plus an optional HMAC signing key. -/
structure Crypto where
  aead : AEAD
  signingKey : Option Bytes

/-- `Crypto.verify` from `cipher.go`: recompute the HMAC over `data` and
compare with `signature` (Go uses `subtle.ConstantTimeCompare`; the
functional content is equality of the byte strings). -/
def Crypto.verify (ext : Ext) (key data signature : Bytes) : Bool :=
  signature == ext.hmacSHA256 key data

/-- `Crypto.EncryptAndSign` from `cipher.go`.  The fresh random `nonce` is an
explicit argument (drawn from `crypto/rand` in Go).  Output layout:
`[signature if signingKey != nil] ‖ nonce ‖ sealed`, base64-encoded. -/
def Crypto.EncryptAndSign {α : Type} (c : Crypto) (ext : Ext) (ser : Serializer α)
    (data : α) (nonce : Bytes) (aad : Bytes) : Except GoError Bytes :=
  match ser.marshal data with
  | none => .error .marshalError
  | some jsonData =>
    let ciphertext := nonce ++ c.aead.Seal nonce jsonData aad
    match c.signingKey with
    | some key => .ok (ext.b64enc (ext.hmacSHA256 key ciphertext ++ ciphertext))
    | none => .ok (ext.b64enc ciphertext)

/-- The tail of `Crypto.DecryptAndVerify` in `cipher.go` after the signature
layer: split nonce from ciphertext, AEAD-open (any failure is normalized to
`ErrEncryptionFailed`), then JSON-unmarshal. -/
def Crypto.openAndDecode {α : Type} (c : Crypto) (ser : Serializer α)
    (decoded aad : Bytes) : Except GoError α :=
  match c.aead.Open (decoded.take c.aead.nonceSize) (decoded.drop c.aead.nonceSize) aad with
  | none => .error .encryptionFailed
  | some plaintext =>
    match ser.unmarshal plaintext with
    | none => .error .unmarshalError
    | some v => .ok v

/-- `Crypto.DecryptAndVerify` from `cipher.go`: base64-decode (failure is the
wrapped "failed to decode base64" error), check the minimum length
(`ErrInvalidSessionData`), verify and strip the 32-byte HMAC when a signing
key is configured (`ErrSignatureInvalid` on mismatch), then open and decode. -/
def Crypto.DecryptAndVerify {α : Type} (c : Crypto) (ext : Ext) (ser : Serializer α)
    (encryptedData : Bytes) (aad : Bytes) : Except GoError α :=
  match ext.b64dec encryptedData with
  | none => .error .base64DecodeError
  | some decoded =>
    match c.signingKey with
    | some key =>
      if decoded.length < 32 + c.aead.nonceSize + c.aead.overhead + 1 then
        .error .invalidSessionData
      else if ! Crypto.verify ext key (decoded.drop 32) (decoded.take 32) then
        .error .signatureInvalid
      else
        Crypto.openAndDecode c ser (decoded.drop 32) aad
    | none =>
      if decoded.length < c.aead.nonceSize + c.aead.overhead + 1 then
        .error .invalidSessionData
      else
        Crypto.openAndDecode c ser decoded aad

/-- Go `interface{}` session values (a representative closed value type;
the claims are independent of the particular value constructors). -/
inductive GoValue where
  | vInt (n : Int)
  | vStr (s : String)
deriving DecidableEq, Repr

/-- Go map insert (`m[k] = v`), on an association-list model of `map[string]interface{}`. -/
def mapInsert (m : List (String × GoValue)) (k : String) (v : GoValue) :
    List (String × GoValue) :=
  (k, v) :: m.filter (fun e => ! (e.1 == k))

/-- Go map read (`m[k]`): `none` models the nil interface returned on a miss. -/
def mapLookup (m : List (String × GoValue)) (k : String) : Option GoValue :=
  (m.find? (fun e => e.1 == k)).map Prod.snd

/-- Go `delete(m, k)`. -/
def mapDelete (m : List (String × GoValue)) (k : String) : List (String × GoValue) :=
  m.filter (fun e => ! (e.1 == k))

/-- `Session` from `session.go`.  `values` is `Option`-wrapped because a Go
map field is nil until allocated; timestamps are `Int` nanoseconds.  The
mutex only serializes access and has no sequential semantics. -/
structure Session where
  id : String
  name : String
  values : Option (List (String × GoValue))
  isNew : Bool
  createdAt : Int
  updatedAt : Int
  expiresAt : Int
deriving DecidableEq, Repr

/-- `NewSession` from `session.go`: fresh empty (allocated) map, `isNew = true`,
`expiresAt = now + maxAge`. -/
def NewSession (id : String) (maxAge : Int) (now : Int) : Session :=
  { id := id
    name := ""
    values := some []
    isNew := true
    createdAt := now
    updatedAt := now
    expiresAt := now + maxAge }

/-- `Session.Set` from `session.go`: allocates the values map if it is nil,
stores the value, advances `updatedAt`. -/
def Session.Set (s : Session) (key : String) (val : GoValue) (now : Int) : Session :=
  let m := match s.values with
    | none => []
    | some m => m
  { s with values := some (mapInsert m key val), updatedAt := now }

/-- `Session.Get` from `session.go`: reading a nil map or a missing key
yields the nil interface (`none`). -/
def Session.Get (s : Session) (key : String) : Option GoValue :=
  match s.values with
  | none => none
  | some m => mapLookup m key

/-- `Session.Delete` from `session.go`: Go `delete` on a nil map is a no-op;
`updatedAt` advances either way. -/
def Session.Delete (s : Session) (key : String) (now : Int) : Session :=
  match s.values with
  | none => { s with updatedAt := now }
  | some m => { s with values := some (mapDelete m key), updatedAt := now }

/-- Cookie options (`cookie.go`); only `MaxAge` (seconds) feeds the core
session logic, the remaining attributes belong to the out-of-scope cookie
layer. -/
structure CookieOptions where
  MaxAge : Int
deriving DecidableEq, Repr

/-- The Redis database contents: a list of `(key, storedValue, ttl)` entries,
`ttl` being the expiry duration passed to the Redis SET command. -/
abbrev RedisDB := List (String × Bytes × Int)

/-- Redis `SET key value EX ttl`: replaces any previous entry for the key. -/
def redisSet (db : RedisDB) (key : String) (val : Bytes) (ttl : Int) : RedisDB :=
  (key, val, ttl) :: db.filter (fun e => ! (e.1 == key))

/-- Redis `DEL key`. -/
def redisDel (db : RedisDB) (key : String) : RedisDB :=
  db.filter (fun e => ! (e.1 == key))

/-- Lookup of a key's stored value and ttl. -/
def redisLookup (db : RedisDB) (key : String) : Option (Bytes × Int) :=
  (db.find? (fun e => e.1 == key)).map Prod.snd

/-- Redis `GET key`: `none` models the `redis.Nil` not-found reply. -/
def redisGet (db : RedisDB) (key : String) : Option Bytes :=
  (redisLookup db key).map Prod.fst

/-- `RedisStore` from the store file.  The Go field `prefix` is renamed
`pfx` (the original name is a Lean keyword). -/
structure RedisStore where
  pfx : String
  crypto : Crypto
  options : CookieOptions

/-- `RedisStore.redisKey`: `prefix + name + ":" + sessionID`. -/
def RedisStore.redisKey (s : RedisStore) (name sessionID : String) : String :=
  s.pfx ++ name ++ ":" ++ sessionID

/-- Result of `RedisStore.load`: the Go return value paired with the Redis
state after the call (load deletes stale entries). -/
structure LoadResult where
  result : Except GoError Session
  db : RedisDB

/-- `RedisStore.load` from the store file.  `getErr` injects an
infrastructure failure of the Redis GET (`none` = the call reached Redis and
got a normal reply); a missing key is the `redis.Nil` reply, converted to
`ErrSessionNotFound`.  A decrypted but already-expired session is deleted
from Redis and reported as `ErrSessionExpired`. -/
def RedisStore.load (s : RedisStore) (ext : Ext) (ser : Serializer Session)
    (name sessionID : String) (db : RedisDB) (now : Int)
    (getErr : Option GoError) : LoadResult :=
  let key := s.redisKey name sessionID
  match getErr with
  | some e => ⟨.error e, db⟩
  | none =>
    match redisGet db key with
    | none => ⟨.error .sessionNotFound, db⟩
    | some encrypted =>
      match s.crypto.DecryptAndVerify ext ser encrypted (strBytes name) with
      | .error e => ⟨.error e, db⟩
      | .ok session =>
        if session.expiresAt < now then ⟨.error .sessionExpired, redisDel db key⟩
        else ⟨.ok session, db⟩

/-- Result of `RedisStore.New`. -/
structure NewResult where
  result : Except GoError Session
  db : RedisDB

/-- `RedisStore.New` from the store file.  `cookieVal` is the incoming
cookie's value (`none` = no cookie on the request), `genID` the outcome of
`GenerateSessionID` (random, hence an explicit argument).  Any `load`
failure is discarded and a fresh session is created. -/
def RedisStore.New (s : RedisStore) (ext : Ext) (ser : Serializer Session)
    (name : String) (cookieVal : Option String) (db : RedisDB) (now : Int)
    (getErr : Option GoError) (genID : Except GoError String) : NewResult :=
  let attempt : Option Session × RedisDB :=
    match cookieVal with
    | none => (none, db)
    | some v =>
      match s.load ext ser name v db now getErr with
      | ⟨.ok loaded, db'⟩ => (some { loaded with isNew := false }, db')
      | ⟨.error _, db'⟩ => (none, db')
  match attempt with
  | (some session, db') => ⟨.ok { session with name := name }, db'⟩
  | (none, db') =>
    match genID with
    | .error e => ⟨.error e, db'⟩
    | .ok id =>
      let session := NewSession id (s.options.MaxAge * second) now
      ⟨.ok { { session with isNew := true } with name := name }, db'⟩

/-- Result of `RedisStore.Save`: the Go error, the Redis state after the
call, and whether an HTTP cookie was written to the response. -/
structure SaveResult where
  result : Except GoError Unit
  db : RedisDB
  cookieSet : Bool

/-- `RedisStore.Save` from the store file: refuse (with `ErrSessionExpired`)
to write a session whose remaining ttl is not positive, otherwise encrypt
under aad = name and SET with expiry = remaining ttl, then set the cookie.
`setErr` injects an infrastructure failure of the Redis SET. -/
def RedisStore.Save (s : RedisStore) (ext : Ext) (ser : Serializer Session)
    (session : Session) (db : RedisDB) (now : Int) (nonce : Bytes)
    (setErr : Option GoError) : SaveResult :=
  let key := s.redisKey session.name session.id
  let ttl := session.expiresAt - now
  if ttl ≤ 0 then ⟨.error .sessionExpired, db, false⟩
  else
    match s.crypto.EncryptAndSign ext ser session nonce (strBytes session.name) with
    | .error e => ⟨.error e, db, false⟩
    | .ok encrypted =>
      match setErr with
      | some e => ⟨.error e, db, false⟩
      | none => ⟨.ok (), redisSet db key encrypted ttl, true⟩

/-- Result of `RedisStore.RotateID`: the Go error, the in-memory session
after the call, the Redis state after the call, and whether a cookie was
written. -/
structure RotateResult where
  result : Except GoError Unit
  session : Session
  db : RedisDB
  cookieSet : Bool

/-- `RedisStore.RotateID` from the store file.  Mirrors the Go control flow:
the in-memory identifier is overwritten with the fresh one BEFORE the
encryption and the atomic Set-new/Del-old remote operation; a non-positive
remaining ttl is clamped to one second.  `genID` is the outcome of
`GenerateSessionID` and `execErr` injects a failure of the atomic remote
operation (`TxPipeline`/script `Exec`). -/
def RedisStore.RotateID (s : RedisStore) (ext : Ext) (ser : Serializer Session)
    (session : Session) (db : RedisDB) (now : Int) (nonce : Bytes)
    (genID : Except GoError String) (execErr : Option GoError) : RotateResult :=
  let oldID := session.id
  let oldKey := s.redisKey session.name oldID
  match genID with
  | .error e => ⟨.error e, session, db, false⟩
  | .ok newID =>
    let session := { session with id := newID }
    let newKey := s.redisKey session.name newID
    let ttl0 := session.expiresAt - now
    let ttl := if ttl0 ≤ 0 then second else ttl0
    match s.crypto.EncryptAndSign ext ser session nonce (strBytes session.name) with
    | .error e => ⟨.error e, session, db, false⟩
    | .ok encrypted =>
      match execErr with
      | some e => ⟨.error e, session, db, false⟩
      | none => ⟨.ok (), session, redisDel (redisSet db newKey encrypted ttl) oldKey, true⟩

/-! Concrete instantiations of the external collaborators, used to show the
theorems' hypotheses are satisfiable. -/

/-- A trivially reversible base64 model and a constant 32-byte HMAC. -/
def idExt : Ext :=
  { b64enc := fun bs => bs
    b64dec := fun bs => some bs
    hmacSHA256 := fun _ _ => List.replicate 32 0 }

/-- A miniature AEAD: one-byte nonce, one-byte tag derived from the
associated data, so opening under the wrong associated data fails. -/
def toyAEAD : AEAD :=
  { nonceSize := 1
    overhead := 1
    Seal := fun _ pt aad => pt ++ [aad.sum % 256]
    Open := fun _ ct aad =>
      if ct.getLast? = some (aad.sum % 256) then some ct.dropLast else none }

/-- A concrete session value for the witnesses. -/
def toySess : Session :=
  { id := "sid"
    name := "app"
    values := some [("user", GoValue.vStr "alice")]
    isNew := false
    createdAt := 0
    updatedAt := 0
    expiresAt := 100 }

/-- A serializer that round-trips `toySess` through the byte string `[1]`. -/
def toySer : Serializer Session :=
  { marshal := fun s => if s = toySess then some [1] else none
    unmarshal := fun b => if b = [1] then some toySess else none }

/-- Crypto with a configured signing key. -/
def toyCrypto : Crypto := { aead := toyAEAD, signingKey := some [5] }

/-- Crypto without a signing key. -/
def toyCryptoNoKey : Crypto := { aead := toyAEAD, signingKey := none }

/-! Helper lemmas about the map and Redis models. -/

theorem mapLookup_mapInsert_self (m : List (String × GoValue)) (k : String) (v : GoValue) :
    mapLookup (mapInsert m k v) k = some v := by
  simp [mapLookup, mapInsert, List.find?]

theorem mapLookup_mapDelete_self (m : List (String × GoValue)) (k : String) :
    mapLookup (mapDelete m k) k = none := by
  have h : (mapDelete m k).find? (fun e => e.1 == k) = none := by
    rw [List.find?_eq_none]
    intro x hx
    rcases List.mem_filter.mp hx with ⟨-, h2⟩
    simpa using h2
  simp [mapLookup, h]

theorem redisLookup_redisDel_self (db : RedisDB) (k : String) :
    redisLookup (redisDel db k) k = none := by
  have h : (redisDel db k).find? (fun e => e.1 == k) = none := by
    rw [List.find?_eq_none]
    intro x hx
    rcases List.mem_filter.mp hx with ⟨-, h2⟩
    simpa using h2
  simp [redisLookup, h]

theorem redisLookup_redisSet_self (db : RedisDB) (k : String) (v : Bytes) (ttl : Int) :
    redisLookup (redisSet db k v ttl) k = some (v, ttl) := by
  simp [redisLookup, redisSet, List.find?]

/-! The claims. -/

/-- C10: `Session.Set` initializes a nil values map first, so `Set`, `Get`
and `Delete` are total even on a session whose map was never allocated;
set-then-get returns the stored value; `Get` of a never-set or deleted key
returns the absent value `none`. -/
theorem c10_session_map_safety (s : Session) (k k2 : String) (v : GoValue) (t t2 : Int) :
    ((s.Set k v t).Get k = some v) ∧
    ((s.Set k v t).values ≠ none) ∧
    (s.values = none → s.Get k2 = none) ∧
    (s.values = none → (s.Delete k2 t).Get k2 = none) ∧
    (((s.Set k v t).Delete k t2).Get k = none) := by
  refine ⟨?_, ?_, ?_, ?_, ?_⟩
  · simp [Session.Set, Session.Get, mapLookup_mapInsert_self]
  · simp [Session.Set]
  · intro h; simp [Session.Get, h]
  · intro h; simp [Session.Delete, Session.Get, h]
  · simp [Session.Set, Session.Delete, Session.Get, mapLookup_mapDelete_self]

/-- Witness for C10 at a session whose values map is nil. -/
theorem c10_session_map_safety_witness :
    ({ toySess with values := none } : Session).values = none ∧
    ({ toySess with values := none } : Session).Get "user" = none :=
  ⟨rfl, (c10_session_map_safety { toySess with values := none } "k" "user"
    (GoValue.vInt 3) 1 2).2.2.1 rfl⟩

/-- C1: for every value and associated data, decrypting the output of
encryption with the same associated data succeeds and returns the original
value, for any signing-key configuration.  The hypotheses are the contracts
of the external collaborators: reversible base64, 32-byte HMAC, AEAD seal
length and seal/open round-trip, and a serializer that round-trips the
value. -/
theorem c1_encrypt_decrypt_roundtrip {α : Type} (c : Crypto) (ext : Ext)
    (ser : Serializer α) (v : α) (nonce aad pt enc : Bytes)
    (hb64 : ∀ bs, ext.b64dec (ext.b64enc bs) = some bs)
    (hhmac : ∀ key d, (ext.hmacSHA256 key d).length = 32)
    (hseal : ∀ n p a, (c.aead.Seal n p a).length = p.length + c.aead.overhead)
    (hn : nonce.length = c.aead.nonceSize)
    (hm : ser.marshal v = some pt)
    (hpt : 1 ≤ pt.length)
    (hopen : c.aead.Open nonce (c.aead.Seal nonce pt aad) aad = some pt)
    (hu : ser.unmarshal pt = some v)
    (henc : c.EncryptAndSign ext ser v nonce aad = .ok enc) :
    c.DecryptAndVerify ext ser enc aad = .ok v := by
  unfold Crypto.EncryptAndSign at henc
  rw [hm] at henc
  unfold Crypto.DecryptAndVerify
  cases hsk : c.signingKey with
  | none =>
    rw [hsk] at henc
    simp only [] at henc
    obtain rfl : ext.b64enc (nonce ++ c.aead.Seal nonce pt aad) = enc := by
      injection henc
    rw [hb64]
    dsimp only
    have hlen : ¬ ((nonce ++ c.aead.Seal nonce pt aad).length <
        c.aead.nonceSize + c.aead.overhead + 1) := by
      rw [List.length_append, hseal, hn]
      omega
    rw [if_neg hlen]
    rw [Crypto.openAndDecode, List.take_left' hn, List.drop_left' hn, hopen]
    dsimp only
    rw [hu]
  | some key =>
    rw [hsk] at henc
    simp only [] at henc
    obtain rfl : ext.b64enc (ext.hmacSHA256 key (nonce ++ c.aead.Seal nonce pt aad) ++
        (nonce ++ c.aead.Seal nonce pt aad)) = enc := by
      injection henc
    rw [hb64]
    dsimp only
    have hlen : ¬ ((ext.hmacSHA256 key (nonce ++ c.aead.Seal nonce pt aad) ++
        (nonce ++ c.aead.Seal nonce pt aad)).length <
        32 + c.aead.nonceSize + c.aead.overhead + 1) := by
      rw [List.length_append, List.length_append, hseal, hn, hhmac]
      omega
    rw [if_neg hlen]
    rw [List.take_left' (hhmac key _), List.drop_left' (hhmac key _)]
    rw [Crypto.verify]
    simp only [beq_self_eq_true, Bool.not_true, Bool.false_eq_true, if_false]
    rw [Crypto.openAndDecode, List.take_left' hn, List.drop_left' hn, hopen]
    dsimp only
    rw [hu]

/-- Witness for C1: the round-trip at a concrete session, both with and
without a configured signing key. -/
theorem c1_encrypt_decrypt_roundtrip_witness :
    toyCrypto.EncryptAndSign idExt toySer toySess [9] [1] =
      .ok (List.replicate 32 0 ++ [9, 1, 1]) ∧
    toyCrypto.DecryptAndVerify idExt toySer (List.replicate 32 0 ++ [9, 1, 1]) [1] =
      .ok toySess ∧
    toyCryptoNoKey.EncryptAndSign idExt toySer toySess [9] [1] = .ok [9, 1, 1] ∧
    toyCryptoNoKey.DecryptAndVerify idExt toySer [9, 1, 1] [1] = .ok toySess :=
  ⟨by decide,
   c1_encrypt_decrypt_roundtrip toyCrypto idExt toySer toySess [9] [1] [1]
     (List.replicate 32 0 ++ [9, 1, 1])
     (fun _ => rfl) (fun _ _ => rfl) (fun _ p _ => by simp [toyCrypto, toyAEAD]) rfl
     (by decide) (by decide) (by decide) (by decide) (by decide),
   by decide,
   c1_encrypt_decrypt_roundtrip toyCryptoNoKey idExt toySer toySess [9] [1] [1]
     [9, 1, 1]
     (fun _ => rfl) (fun _ _ => rfl) (fun _ p _ => by simp [toyCryptoNoKey, toyAEAD]) rfl
     (by decide) (by decide) (by decide) (by decide) (by decide)⟩

/-- A base64 model whose decode rejects the byte string `[0]`, standing for
an input text that is not valid base64. -/
def rejectExt : Ext :=
  { b64enc := fun bs => bs
    b64dec := fun bs => if bs = [0] then none else some bs
    hmacSHA256 := fun _ _ => List.replicate 32 0 }

/-- C4 counterexample: when base64 decoding fails, `DecryptAndVerify`
returns the wrapped base64-decode error, not `ErrInvalidSessionData` as the
claim states. -/
theorem c4_decode_error_counterexample :
    toyCrypto.DecryptAndVerify rejectExt toySer [0] [1] = .error .base64DecodeError ∧
    GoError.base64DecodeError ≠ GoError.invalidSessionData :=
  ⟨by decide, by decide⟩

/-- C4 (amended): a base64 decode failure fails with the wrapped decode
error; decoded bytes shorter than the minimum possible size (32 signature
bytes when a signing key is configured, plus nonce size, plus AEAD
overhead, plus one plaintext byte) fail with `ErrInvalidSessionData`. -/
theorem c4_short_input_invalid {α : Type} (c : Crypto) (ext : Ext) (ser : Serializer α)
    (t aad : Bytes) :
    (ext.b64dec t = none →
      c.DecryptAndVerify ext ser t aad = .error .base64DecodeError) ∧
    (∀ d key, ext.b64dec t = some d → c.signingKey = some key →
      d.length < 32 + c.aead.nonceSize + c.aead.overhead + 1 →
      c.DecryptAndVerify ext ser t aad = .error .invalidSessionData) ∧
    (∀ d, ext.b64dec t = some d → c.signingKey = none →
      d.length < c.aead.nonceSize + c.aead.overhead + 1 →
      c.DecryptAndVerify ext ser t aad = .error .invalidSessionData) := by
  refine ⟨?_, ?_, ?_⟩
  · intro h
    unfold Crypto.DecryptAndVerify
    rw [h]
  · intro d key hd hk hlen
    unfold Crypto.DecryptAndVerify
    rw [hd]
    dsimp only
    rw [hk]
    dsimp only
    rw [if_pos hlen]
  · intro d hd hk hlen
    unfold Crypto.DecryptAndVerify
    rw [hd]
    dsimp only
    rw [hk]
    dsimp only
    rw [if_pos hlen]

/-- Witness for the amended C4: a failing decode, and a too-short decoded
input for each signing configuration. -/
theorem c4_short_input_invalid_witness :
    rejectExt.b64dec [0] = none ∧
    toyCrypto.DecryptAndVerify rejectExt toySer [0] [1] = .error .base64DecodeError ∧
    toyCrypto.DecryptAndVerify idExt toySer [1, 2] [1] = .error .invalidSessionData ∧
    toyCryptoNoKey.DecryptAndVerify idExt toySer [1, 2] [1] = .error .invalidSessionData :=
  ⟨by decide,
   (c4_short_input_invalid toyCrypto rejectExt toySer [0] [1]).1 (by decide),
   (c4_short_input_invalid toyCrypto idExt toySer [1, 2] [1]).2.1 [1, 2] [5]
     rfl rfl (by decide),
   (c4_short_input_invalid toyCryptoNoKey idExt toySer [1, 2] [1]).2.2 [1, 2]
     rfl rfl (by decide)⟩

/-- C5: with a signing key configured and a decoded input meeting the
minimum length, an HMAC mismatch between the recomputed signature over the
bytes after the leading 32 and those 32 bytes fails with
`ErrSignatureInvalid` — and the result is the same for every possible AEAD
`Open` function, so AEAD decryption is never attempted. -/
theorem c5_signature_mismatch {α : Type} (c : Crypto) (ext : Ext) (ser : Serializer α)
    (key t d aad : Bytes) (f : Bytes → Bytes → Bytes → Option Bytes)
    (hk : c.signingKey = some key)
    (hd : ext.b64dec t = some d)
    (hlen : 32 + c.aead.nonceSize + c.aead.overhead + 1 ≤ d.length)
    (hmis : d.take 32 ≠ ext.hmacSHA256 key (d.drop 32)) :
    Crypto.DecryptAndVerify { c with aead := { c.aead with Open := f } } ext ser t aad =
      .error .signatureInvalid := by
  unfold Crypto.DecryptAndVerify
  rw [hd]
  dsimp only
  rw [hk]
  dsimp only
  rw [if_neg (by omega)]
  have hv : Crypto.verify ext key (d.drop 32) (d.take 32) = false := by
    unfold Crypto.verify
    exact beq_eq_false_iff_ne.mpr hmis
  rw [hv]
  rfl

/-- Witness for C5: a concrete mismatched signature is rejected even when
the AEAD `Open` in place would accept anything. -/
theorem c5_signature_mismatch_witness :
    (List.replicate 35 1).take 32 ≠ idExt.hmacSHA256 [5] ((List.replicate 35 1).drop 32) ∧
    Crypto.DecryptAndVerify
        { toyCrypto with aead := { toyCrypto.aead with Open := fun _ _ _ => some [1] } }
        idExt toySer (List.replicate 35 1) [1] =
      .error .signatureInvalid :=
  ⟨by decide,
   c5_signature_mismatch toyCrypto idExt toySer [5] (List.replicate 35 1)
     (List.replicate 35 1) [1] (fun _ _ _ => some [1]) rfl rfl (by decide) (by decide)⟩

/-- C6: an envelope produced under associated data A, decrypted under
associated data B with A ≠ B, fails, and the failure is the
`ErrEncryptionFailed` class (the AEAD open failure is not distinguished
further), for any signing-key configuration. -/
theorem c6_aad_binding {α : Type} (c : Crypto) (ext : Ext) (ser : Serializer α)
    (v : α) (nonce A B pt enc : Bytes)
    (hAB : A ≠ B)
    (hb64 : ∀ bs, ext.b64dec (ext.b64enc bs) = some bs)
    (hhmac : ∀ key d, (ext.hmacSHA256 key d).length = 32)
    (hseal : ∀ n p a, (c.aead.Seal n p a).length = p.length + c.aead.overhead)
    (hn : nonce.length = c.aead.nonceSize)
    (hm : ser.marshal v = some pt)
    (hpt : 1 ≤ pt.length)
    (hopen : c.aead.Open nonce (c.aead.Seal nonce pt A) B = none)
    (henc : c.EncryptAndSign ext ser v nonce A = .ok enc) :
    c.DecryptAndVerify ext ser enc B = .error .encryptionFailed := by
  unfold Crypto.EncryptAndSign at henc
  rw [hm] at henc
  unfold Crypto.DecryptAndVerify
  cases hsk : c.signingKey with
  | none =>
    rw [hsk] at henc
    simp only [] at henc
    obtain rfl : ext.b64enc (nonce ++ c.aead.Seal nonce pt A) = enc := by
      injection henc
    rw [hb64]
    dsimp only
    have hlen : ¬ ((nonce ++ c.aead.Seal nonce pt A).length <
        c.aead.nonceSize + c.aead.overhead + 1) := by
      rw [List.length_append, hseal, hn]
      omega
    rw [if_neg hlen]
    rw [Crypto.openAndDecode, List.take_left' hn, List.drop_left' hn, hopen]
  | some key =>
    rw [hsk] at henc
    simp only [] at henc
    obtain rfl : ext.b64enc (ext.hmacSHA256 key (nonce ++ c.aead.Seal nonce pt A) ++
        (nonce ++ c.aead.Seal nonce pt A)) = enc := by
      injection henc
    rw [hb64]
    dsimp only
    have hlen : ¬ ((ext.hmacSHA256 key (nonce ++ c.aead.Seal nonce pt A) ++
        (nonce ++ c.aead.Seal nonce pt A)).length <
        32 + c.aead.nonceSize + c.aead.overhead + 1) := by
      rw [List.length_append, List.length_append, hseal, hn, hhmac]
      omega
    rw [if_neg hlen]
    rw [List.take_left' (hhmac key _), List.drop_left' (hhmac key _)]
    rw [Crypto.verify]
    simp only [beq_self_eq_true, Bool.not_true, Bool.false_eq_true, if_false]
    rw [Crypto.openAndDecode, List.take_left' hn, List.drop_left' hn, hopen]

/-- Witness for C6: a concrete envelope encrypted under aad `[1]` fails to
decrypt under aad `[2]` with `ErrEncryptionFailed`, with and without a
signing key. -/
theorem c6_aad_binding_witness :
    ([1] : Bytes) ≠ [2] ∧
    toyCrypto.DecryptAndVerify idExt toySer (List.replicate 32 0 ++ [9, 1, 1]) [2] =
      .error .encryptionFailed ∧
    toyCryptoNoKey.DecryptAndVerify idExt toySer [9, 1, 1] [2] =
      .error .encryptionFailed :=
  ⟨by decide,
   c6_aad_binding toyCrypto idExt toySer toySess [9] [1] [2] [1]
     (List.replicate 32 0 ++ [9, 1, 1]) (by decide)
     (fun _ => rfl) (fun _ _ => rfl) (fun _ p _ => by simp [toyCrypto, toyAEAD]) rfl
     (by decide) (by decide) (by decide) (by decide),
   c6_aad_binding toyCryptoNoKey idExt toySer toySess [9] [1] [2] [1] [9, 1, 1]
     (by decide)
     (fun _ => rfl) (fun _ _ => rfl) (fun _ p _ => by simp [toyCryptoNoKey, toyAEAD]) rfl
     (by decide) (by decide) (by decide) (by decide)⟩

theorem redisFind_redisDel_ne (db : RedisDB) (k k' : String) (h : k ≠ k') :
    (redisDel db k').find? (fun e => e.1 == k) = db.find? (fun e => e.1 == k) := by
  induction db with
  | nil => rfl
  | cons e rest ih =>
    unfold redisDel at *
    by_cases he : e.1 = k'
    · have h1 : (e.1 == k') = true := by simpa using he
      have h2 : (e.1 == k) = false := by
        subst he
        simpa using fun hh => h hh.symm
      simp [List.filter_cons, h1, h2, List.find?, ih]
    · have h1 : (e.1 == k') = false := by simpa using he
      by_cases hk : e.1 = k
      · have h2 : (e.1 == k) = true := by simpa using hk
        simp [List.filter_cons, h1, List.find?, h2]
      · have h2 : (e.1 == k) = false := by simpa using hk
        simp [List.filter_cons, h1, List.find?, h2, ih]

theorem redisLookup_redisDel_ne (db : RedisDB) (k k' : String) (h : k ≠ k') :
    redisLookup (redisDel db k') k = redisLookup db k := by
  unfold redisLookup
  rw [redisFind_redisDel_ne db k k' h]

/-- A concrete store for the store-level scenarios. -/
def toyStore : RedisStore :=
  { pfx := "p:", crypto := toyCryptoNoKey, options := { MaxAge := 10 } }

/-- C7: `Save` of a session whose remaining ttl is ≤ 0 fails with
`ErrSessionExpired`, leaves Redis unchanged and sets no cookie; with a
positive remaining ttl (and successful encryption and Redis SET) the entry
is written under `prefix‖name‖":"‖id` with Redis expiry equal to the
remaining ttl. -/
theorem c7_save_expiry (s : RedisStore) (ext : Ext) (ser : Serializer Session)
    (session : Session) (db : RedisDB) (now : Int) (nonce : Bytes)
    (setErr : Option GoError) :
    (session.expiresAt - now ≤ 0 →
      RedisStore.Save s ext ser session db now nonce setErr =
        ⟨.error .sessionExpired, db, false⟩) ∧
    (0 < session.expiresAt - now → setErr = none →
      ∀ enc, s.crypto.EncryptAndSign ext ser session nonce (strBytes session.name) = .ok enc →
      RedisStore.Save s ext ser session db now nonce setErr =
        ⟨.ok (), redisSet db (s.pfx ++ session.name ++ ":" ++ session.id) enc
          (session.expiresAt - now), true⟩ ∧
      redisLookup (RedisStore.Save s ext ser session db now nonce setErr).db
          (s.pfx ++ session.name ++ ":" ++ session.id) =
        some (enc, session.expiresAt - now)) := by
  constructor
  · intro h
    unfold RedisStore.Save
    dsimp only
    rw [if_pos h]
  · intro h hset enc henc
    have heq : RedisStore.Save s ext ser session db now nonce setErr =
        ⟨.ok (), redisSet db (s.pfx ++ session.name ++ ":" ++ session.id) enc
          (session.expiresAt - now), true⟩ := by
      unfold RedisStore.Save RedisStore.redisKey
      dsimp only
      rw [if_neg (by omega), henc, hset]
    exact ⟨heq, by rw [heq]; exact redisLookup_redisSet_self db _ enc _⟩

/-- Witness for C7: a concrete expired save is refused, and a concrete live
save writes the remaining ttl. -/
theorem c7_save_expiry_witness :
    RedisStore.Save toyStore idExt toySer { toySess with expiresAt := 3 } [] 10 [9] none =
      ⟨.error .sessionExpired, [], false⟩ ∧
    redisLookup (RedisStore.Save toyStore idExt toySer { toySess with name := "app" } [] 10 [9] none).db
        (toyStore.pfx ++ "app" ++ ":" ++ toySess.id) =
      some ([9, 1, 65], (100 : Int) - 10) :=
  ⟨(c7_save_expiry toyStore idExt toySer { toySess with expiresAt := 3 } [] 10 [9] none).1
     (by decide),
   ((c7_save_expiry toyStore idExt toySer { toySess with name := "app" } [] 10 [9] none).2
     (by decide) rfl [9, 1, 65] (by decide)).2⟩

/-- A session that is already expired when read back (`expiresAt = 5`). -/
def expSess : Session := { toySess with expiresAt := 5 }

/-- Serializer that round-trips `expSess` through the byte string `[1]`. -/
def expSer : Serializer Session :=
  { marshal := fun s => if s = expSess then some [1] else none
    unmarshal := fun b => if b = [1] then some expSess else none }

/-- Redis contents holding the (valid, decryptable, but expired) entry for
`("app", "sid")` in `toyStore`. -/
def c8db : RedisDB := [("p:app:sid", [9, 1, 65], 50)]

/-- C8: resolving an identifier whose stored entry decrypts and verifies
but whose `expiresAt` has passed deletes the stale Redis entry and returns
a freshly created session with `isNew = true` and none of the prior
values. -/
theorem c8_expired_entry_recreated (s : RedisStore) (ext : Ext) (ser : Serializer Session)
    (name sid fid : String) (db : RedisDB) (now : Int) (enc : Bytes) (sess : Session)
    (hget : redisGet db (s.redisKey name sid) = some enc)
    (hdec : s.crypto.DecryptAndVerify ext ser enc (strBytes name) = .ok sess)
    (hexp : sess.expiresAt < now) :
    (RedisStore.New s ext ser name (some sid) db now none (.ok fid)).db =
      redisDel db (s.redisKey name sid) ∧
    redisGet (RedisStore.New s ext ser name (some sid) db now none (.ok fid)).db
      (s.redisKey name sid) = none ∧
    (RedisStore.New s ext ser name (some sid) db now none (.ok fid)).result =
      .ok { NewSession fid (s.options.MaxAge * second) now with name := name } ∧
    ({ NewSession fid (s.options.MaxAge * second) now with name := name } : Session).isNew
      = true ∧
    ∀ k, ({ NewSession fid (s.options.MaxAge * second) now with name := name } : Session).Get k
      = none := by
  have hload : s.load ext ser name sid db now none =
      ⟨.error .sessionExpired, redisDel db (s.redisKey name sid)⟩ := by
    unfold RedisStore.load
    dsimp only
    rw [hget]
    dsimp only
    rw [hdec]
    dsimp only
    rw [if_pos hexp]
  have hnew : RedisStore.New s ext ser name (some sid) db now none (.ok fid) =
      ⟨.ok { NewSession fid (s.options.MaxAge * second) now with name := name },
       redisDel db (s.redisKey name sid)⟩ := by
    unfold RedisStore.New
    dsimp only
    rw [hload]
    rfl
  refine ⟨by rw [hnew], ?_, by rw [hnew], rfl, fun k => rfl⟩
  rw [hnew]
  simp [redisGet, redisLookup_redisDel_self]

/-- Witness for C8 at a concrete expired entry. -/
theorem c8_expired_entry_recreated_witness :
    redisGet (RedisStore.New toyStore idExt expSer "app" (some "sid") c8db 10 none
        (.ok "fid")).db (toyStore.redisKey "app" "sid") = none ∧
    (RedisStore.New toyStore idExt expSer "app" (some "sid") c8db 10 none
        (.ok "fid")).result =
      .ok { NewSession "fid" (toyStore.options.MaxAge * second) 10 with name := "app" } :=
  ⟨(c8_expired_entry_recreated toyStore idExt expSer "app" "sid" "fid" c8db 10
      [9, 1, 65] expSess (by decide) (by decide) (by decide)).2.1,
   (c8_expired_entry_recreated toyStore idExt expSer "app" "sid" "fid" c8db 10
      [9, 1, 65] expSess (by decide) (by decide) (by decide)).2.2.1⟩

/-- C2: the code violates the claim — a Redis infrastructure error while
loading (a connection failure, injected as `redisError 7`) is swallowed by
`RedisStore.New`: the caller gets a fresh session and a nil error instead
of the propagated infrastructure error. -/
theorem c2_infra_error_swallowed :
    RedisStore.New toyStore idExt toySer "app" (some "cid") [] 0
        (some (.redisError 7)) (.ok "fid") =
      ⟨.ok { id := "fid", name := "app", values := some [], isNew := true,
             createdAt := 0, updatedAt := 0, expiresAt := 10 * second }, []⟩ ∧
    (RedisStore.New toyStore idExt toySer "app" (some "cid") [] 0
        (some (.redisError 7)) (.ok "fid")).result ≠ .error (.redisError 7) :=
  ⟨rfl, by decide⟩

/-- The in-memory session before an identifier rotation. -/
def rotOldSess : Session :=
  { id := "old", name := "app", values := some [], isNew := false,
    createdAt := 0, updatedAt := 0, expiresAt := 100 }

/-- Serializer that accepts only the rotated session (id already "new"). -/
def rotSer : Serializer Session :=
  { marshal := fun s => if s = { rotOldSess with id := "new" } then some [1] else none
    unmarshal := fun _ => none }

/-- C3: the code violates the claim — `RotateID` overwrites the in-memory
identifier with the fresh one BEFORE the remote operation, so on a remote
failure (`redisError 3`) or an encryption failure the session's identifier
is already the new one, not the old one. -/
theorem c3_id_updated_before_remote_failure :
    (RedisStore.RotateID toyStore idExt rotSer rotOldSess [] 0 [9] (.ok "new")
        (some (.redisError 3))).result = .error (.redisError 3) ∧
    (RedisStore.RotateID toyStore idExt rotSer rotOldSess [] 0 [9] (.ok "new")
        (some (.redisError 3))).session.id = "new" ∧
    (RedisStore.RotateID toyStore idExt toySer rotOldSess [] 0 [9] (.ok "new")
        none).result = .error .marshalError ∧
    (RedisStore.RotateID toyStore idExt toySer rotOldSess [] 0 [9] (.ok "new")
        none).session.id = "new" ∧
    rotOldSess.id = "old" :=
  ⟨rfl, rfl, rfl, rfl, rfl⟩

/-- The session for the C9 counterexample: already expired at rotation
time. -/
def c9sess : Session := { rotOldSess with expiresAt := -5 }

/-- Serializer accepting only the rotated C9 session. -/
def c9ser : Serializer Session :=
  { marshal := fun s => if s = { c9sess with id := "new" } then some [1] else none
    unmarshal := fun _ => none }

/-- C9 counterexample: a successful `RotateID` of a session whose remaining
ttl is −5 ns writes the new entry with a one-second expiry, not with the
remaining time-to-live, refuting the claim as stated. -/
theorem c9_ttl_clamp_counterexample :
    (RedisStore.RotateID toyStore idExt c9ser c9sess [] 0 [9] (.ok "new") none).result
      = .ok () ∧
    redisLookup (RedisStore.RotateID toyStore idExt c9ser c9sess [] 0 [9] (.ok "new")
        none).db (toyStore.redisKey "app" "new") = some ([9, 1, 65], second) ∧
    second ≠ c9sess.expiresAt - 0 :=
  ⟨rfl, by decide, by decide⟩

/-- C9 (amended): a successful `RotateID` writes, under the fresh
identifier, the encryption of the current in-memory session state (which
carries the new identifier) with Redis expiry equal to the remaining
time-to-live when positive and one second otherwise, and deletes the entry
under the old identifier. -/
theorem c9_rotate_payload_ttl (s : RedisStore) (ext : Ext) (ser : Serializer Session)
    (session : Session) (db : RedisDB) (now : Int) (nonce : Bytes)
    (newID : String) (enc : Bytes)
    (henc : s.crypto.EncryptAndSign ext ser { session with id := newID } nonce
      (strBytes session.name) = .ok enc)
    (hkeys : s.redisKey session.name session.id ≠ s.redisKey session.name newID) :
    (RedisStore.RotateID s ext ser session db now nonce (.ok newID) none).result
      = .ok () ∧
    redisLookup (RedisStore.RotateID s ext ser session db now nonce (.ok newID) none).db
        (s.redisKey session.name newID) =
      some (enc, if session.expiresAt - now ≤ 0 then second else session.expiresAt - now) ∧
    redisLookup (RedisStore.RotateID s ext ser session db now nonce (.ok newID) none).db
        (s.redisKey session.name session.id) = none := by
  have heq : RedisStore.RotateID s ext ser session db now nonce (.ok newID) none =
      ⟨.ok (), { session with id := newID },
       redisDel (redisSet db (s.redisKey session.name newID) enc
         (if session.expiresAt - now ≤ 0 then second else session.expiresAt - now))
         (s.redisKey session.name session.id), true⟩ := by
    unfold RedisStore.RotateID
    dsimp only
    rw [henc]
  refine ⟨by rw [heq], ?_, ?_⟩
  · rw [heq]
    have h2 := redisLookup_redisDel_ne
      (redisSet db (s.redisKey session.name newID) enc
        (if session.expiresAt - now ≤ 0 then second else session.expiresAt - now))
      (s.redisKey session.name newID) (s.redisKey session.name session.id)
      (fun hh => hkeys hh.symm)
    rw [h2]
    exact redisLookup_redisSet_self db _ enc _
  · rw [heq]
    exact redisLookup_redisDel_self _ _

/-- Witness for the amended C9 at a concrete live rotation. -/
theorem c9_rotate_payload_ttl_witness :
    (RedisStore.RotateID toyStore idExt rotSer rotOldSess [] 0 [9] (.ok "new") none).result
      = .ok () ∧
    redisLookup (RedisStore.RotateID toyStore idExt rotSer rotOldSess [] 0 [9]
        (.ok "new") none).db (toyStore.redisKey "app" "new") =
      some ([9, 1, 65],
        if rotOldSess.expiresAt - 0 ≤ 0 then second else rotOldSess.expiresAt - 0) ∧
    redisLookup (RedisStore.RotateID toyStore idExt rotSer rotOldSess [] 0 [9]
        (.ok "new") none).db (toyStore.redisKey "app" "old") = none :=
  c9_rotate_payload_ttl toyStore idExt rotSer rotOldSess [] 0 [9] "new" [9, 1, 65]
    (by decide) (by decide)

end RedisSession
